import Mathlib

/-!
Verification of the chunk-stream-to-WAV assembler of the Inworld AI tutor
backend. Buffers are modelled as lists of natural numbers (byte values),
JavaScript strings as lists of natural numbers (code points). The
definitions below are shallow embeddings of the functions in
src/utils/audio.ts and of the decode loop of streamSpeech in
src/inworld/tts.ts.
-/

namespace InworldTTS

/-- Little-endian byte split of a 32-bit value, as written by
Buffer.writeUInt32LE (which requires the value to fit in 32 bits). -/
def u32le (v : Nat) : List Nat :=
  [v % 256, v / 256 % 256, v / 65536 % 256, v / 16777216 % 256]

/-- Little-endian byte split of a 16-bit value, as written by
Buffer.writeUInt16LE. -/
def u16le (v : Nat) : List Nat :=
  [v % 256, v / 256 % 256]

/-- Little-endian read of 4 bytes at a given offset, as done by
Buffer.readUInt32LE; out-of-range positions read as 0. -/
def readU32LE (bs : List Nat) (off : Nat) : Nat :=
  bs.getD off 0 + 256 * bs.getD (off + 1) 0 +
    65536 * bs.getD (off + 2) 0 + 16777216 * bs.getD (off + 3) 0

/-- Embedding of decodeBase64 from src/utils/audio.ts, which is
Buffer.from(base64, base64). Node base64 decoding is forgiving: it maps
the standard and URL-safe alphabets to sextet values and skips every
other character (whitespace, padding, garbage), then converts groups of
sextets to bytes. It never throws. `base64Val` is the character table. -/
def base64Val (c : Nat) : Option Nat :=
  if 65 ≤ c ∧ c ≤ 90 then some (c - 65)
  else if 97 ≤ c ∧ c ≤ 122 then some (c - 97 + 26)
  else if 48 ≤ c ∧ c ≤ 57 then some (c - 48 + 52)
  else if c = 43 ∨ c = 45 then some 62
  else if c = 47 ∨ c = 95 then some 63
  else none

/-- Conversion of a list of base64 sextet values to bytes: each full
group of 4 sextets yields 3 bytes, a trailing group of 3 yields 2 bytes,
a trailing group of 2 yields 1 byte, a single trailing sextet yields
nothing. -/
def sextetsToBytes : List Nat → List Nat
  | s0 :: s1 :: s2 :: s3 :: rest =>
      (s0 * 4 + s1 / 16) :: (s1 % 16 * 16 + s2 / 4) :: (s2 % 4 * 64 + s3) ::
        sextetsToBytes rest
  | [s0, s1, s2] => [s0 * 4 + s1 / 16, s1 % 16 * 16 + s2 / 4]
  | [s0, s1] => [s0 * 4 + s1 / 16]
  | _ => []

/-- decodeBase64 from src/utils/audio.ts: Buffer.from(base64, base64),
total on every input string. -/
def decodeBase64 (base64 : List Nat) : List Nat :=
  sextetsToBytes (base64.filterMap base64Val)

/-- hasWavHeader from src/utils/audio.ts. Buffer.toString with the ascii
encoding unsets the highest bit of each byte before decoding, hence the
mod 128 on each compared byte. -/
def hasWavHeader (buffer : List Nat) : Bool :=
  if buffer.length < 12 then false
  else
    decide ((buffer.take 4).map (fun b => b % 128) = [82, 73, 70, 70]) &&
      decide (((buffer.drop 8).take 4).map (fun b => b % 128) = [87, 65, 86, 69])

/-- stripWavHeader from src/utils/audio.ts: drop the first 44 bytes when
the header check passes and the buffer is longer than 44 bytes. -/
def stripWavHeader (buffer : List Nat) : List Nat :=
  if hasWavHeader buffer && decide (44 < buffer.length) then buffer.drop 44
  else buffer

/-- createWavHeader from src/utils/audio.ts. The TypeScript signature
defaults channels to 1 and bitsPerSample to 16; callers in this
repository always use those defaults, for which the byteRate division is
exact. Fields appear at their write offsets 0,4,8,12,16,20,22,24,28,32,34,36,40. -/
def createWavHeader (dataLength sampleRate channels bitsPerSample : Nat) : List Nat :=
  let byteRate := sampleRate * channels * bitsPerSample / 8
  let blockAlign := channels * bitsPerSample / 8
  let fileSize := 36 + dataLength
  [82, 73, 70, 70] ++ u32le fileSize ++ [87, 65, 86, 69] ++
    [102, 109, 116, 32] ++ u32le 16 ++ u16le 1 ++ u16le channels ++
    u32le sampleRate ++ u32le byteRate ++ u16le blockAlign ++ u16le bitsPerSample ++
    [100, 97, 116, 97] ++ u32le dataLength

/-- assembleWav from src/utils/audio.ts: concatenate the chunks and
prefix the 44-byte header (channels 1, 16 bits per sample). -/
def assembleWav (chunks : List (List Nat)) (sampleRate : Nat) : List Nat :=
  let rawData := chunks.flatten
  createWavHeader rawData.length sampleRate 1 16 ++ rawData

/-- Concrete buffers used to refute the idempotence part of the header
stripping claim: a 44-byte region that passes the header check, followed
by a 45-byte region that passes it again. -/
def wavNested : List Nat :=
  [82, 73, 70, 70, 0, 0, 0, 0, 87, 65, 86, 69] ++ List.replicate 32 0 ++
    ([82, 73, 70, 70, 0, 0, 0, 0, 87, 65, 86, 69] ++ List.replicate 33 0)

/-- Concrete buffer whose first byte is 210 = 82 + 128: it lacks the
literal RIFF tag, yet the ascii masking makes the header check pass. -/
def wavMasked : List Nat :=
  [210, 73, 70, 70, 0, 0, 0, 0, 87, 65, 86, 69] ++ List.replicate 33 0

/-- Concrete buffer with a genuine header: 44 literal header bytes and
one extra data byte. -/
def wavPlain : List Nat :=
  [82, 73, 70, 70, 0, 0, 0, 0, 87, 65, 86, 69] ++ List.replicate 33 7

example : decodeBase64 [84, 81, 61, 61] = [77] := by decide

example : hasWavHeader [82, 73, 70, 70, 0, 0, 0, 0, 87, 65, 86, 69] = true := by decide

example : stripWavHeader [1, 2, 3] = [1, 2, 3] := by decide

/-!
Embedding of the streamSpeech decode loop of src/inworld/tts.ts. The
loop reads byte values from the upstream stream, decodes them with a
streaming TextDecoder, splits the accumulated text on newline
characters, keeps the trailing incomplete line, and processes every
complete line: whitespace-only lines are skipped, lines that fail
JSON.parse are counted as warnings and skipped, parsed records with a
truthy result.audioContent contribute one base64-decoded,
header-stripped chunk.
-/

/-- Code points removed by the JavaScript String.prototype.trim: the
ECMAScript WhiteSpace and LineTerminator sets. -/
def jsWhitespaceChars : List Nat :=
  [9, 10, 11, 12, 13, 32, 160, 5760, 8192, 8193, 8194, 8195, 8196, 8197,
   8198, 8199, 8200, 8201, 8202, 8232, 8233, 8239, 8287, 12288, 65279]

/-- Whether a code point is JavaScript whitespace; a line satisfies the
falsy-after-trim test of the loop exactly when all its code points are
whitespace. -/
def isJsWhitespace (c : Nat) : Bool :=
  jsWhitespaceChars.contains c

/-- State of the WHATWG streaming UTF-8 decoder underlying
new TextDecoder(): the partially accumulated code point, how many
continuation bytes are expected and seen, and the admissible range of
the next continuation byte. -/
structure Utf8State where
  codePoint : Nat
  bytesNeeded : Nat
  bytesSeen : Nat
  lowerBoundary : Nat
  upperBoundary : Nat
  deriving DecidableEq

/-- Fresh UTF-8 decoder state. -/
def utf8Fresh : Utf8State :=
  { codePoint := 0, bytesNeeded := 0, bytesSeen := 0,
    lowerBoundary := 128, upperBoundary := 191 }

/-- One byte fed to the decoder when no multi-byte sequence is pending:
ASCII bytes are emitted directly, lead bytes open a sequence with the
range restrictions of the WHATWG UTF-8 decode algorithm, and invalid
bytes emit the replacement character 65533. -/
def utf8StepFresh (b : Nat) : Utf8State × List Nat :=
  if b ≤ 127 then (utf8Fresh, [b])
  else if 194 ≤ b ∧ b ≤ 223 then
    ({ codePoint := b % 32, bytesNeeded := 1, bytesSeen := 0,
       lowerBoundary := 128, upperBoundary := 191 }, [])
  else if 224 ≤ b ∧ b ≤ 239 then
    ({ codePoint := b % 16, bytesNeeded := 2, bytesSeen := 0,
       lowerBoundary := if b = 224 then 160 else 128,
       upperBoundary := if b = 237 then 159 else 191 }, [])
  else if 240 ≤ b ∧ b ≤ 244 then
    ({ codePoint := b % 8, bytesNeeded := 3, bytesSeen := 0,
       lowerBoundary := if b = 240 then 144 else 128,
       upperBoundary := if b = 244 then 143 else 191 }, [])
  else (utf8Fresh, [65533])

/-- One byte fed to the streaming decoder: continuation bytes in range
extend the pending code point; a byte out of range emits the replacement
character and is reprocessed as a fresh byte, per the WHATWG rule that
restores the byte to the stream. -/
def utf8Step (s : Utf8State) (b : Nat) : Utf8State × List Nat :=
  if s.bytesNeeded = 0 then utf8StepFresh b
  else if s.lowerBoundary ≤ b ∧ b ≤ s.upperBoundary then
    let cp := s.codePoint * 64 + b % 64
    if s.bytesSeen + 1 = s.bytesNeeded then (utf8Fresh, [cp])
    else
      ({ codePoint := cp, bytesNeeded := s.bytesNeeded,
         bytesSeen := s.bytesSeen + 1,
         lowerBoundary := 128, upperBoundary := 191 }, [])
  else
    let r := utf8StepFresh b
    (r.1, 65533 :: r.2)

/-- Streaming decode of a byte list, returning the final decoder state
and the emitted code points; this is decoder.decode(value, stream true)
except for the leading-BOM removal, which is handled by stripBom below. -/
def utf8Decode : Utf8State → List Nat → Utf8State × List Nat
  | s, [] => (s, [])
  | s, b :: bs =>
    let r := utf8Step s b
    let rest := utf8Decode r.1 bs
    (rest.1, r.2 ++ rest.2)

/-- Removal of a leading byte-order mark, once per stream: a TextDecoder
constructed without ignoreBOM drops the very first code point of the
decoded stream when it is 65279. The flag records whether the start of
the stream has already been seen. -/
def stripBom (handled : Bool) (out : List Nat) : Bool × List Nat :=
  if handled then (true, out)
  else
    match out with
    | [] => (false, [])
    | c :: rest => (true, if c = 65279 then rest else c :: rest)

/-- Split of accumulated text into the list of complete
newline-terminated lines and the trailing incomplete remainder; this is
buffer.split on the newline character followed by popping the last
piece, as in the decode loop. -/
def splitLines : List Nat → List (List Nat) × List Nat
  | [] => ([], [])
  | c :: rest =>
    let p := splitLines rest
    if c = 10 then ([] :: p.1, p.2)
    else
      match p.1 with
      | [] => ([], c :: p.2)
      | l :: ls => ((c :: l) :: ls, p.2)

example : splitLines [97, 10, 98, 10, 99] = ([[97], [98]], [99]) := by decide

example : splitLines [10, 10] = ([[], []], []) := by decide

/-- Shape of one parsed stream record, from src/types.ts. The decode
loop accesses chunk.result?.audioContent with optional chaining, so both
levels are modelled as optional; the audioContent string is a list of
code points. -/
structure TTSResult where
  audioContent : Option (List Nat)
  deriving DecidableEq

/-- Parsed form of one newline-delimited JSON record. -/
structure TTSStreamChunk where
  result : Option TTSResult
  deriving DecidableEq

/-- Accumulator of the decode loop across complete lines: the decoded
chunks in arrival order, the number of parse warnings, the number of
complete lines processed so far, and the index of the line at which the
first chunk was decoded (the performance.now() call that sets
firstChunkTime happens while processing that line). -/
structure ChunkAccum where
  chunks : List (List Nat)
  warnings : Nat
  lineCount : Nat
  firstChunkIdx : Option Nat
  deriving DecidableEq

/-- Empty accumulator at request start. -/
def accStart : ChunkAccum :=
  { chunks := [], warnings := 0, lineCount := 0, firstChunkIdx := none }

/-- Processing of one complete line, parameterized by the JSON.parse
embedding parse (none models a parse exception). Mirrors the loop body:
skip whitespace-only lines, warn and skip unparseable lines, skip
records without a truthy result.audioContent, and otherwise append the
base64-decoded, header-stripped chunk, recording the first-chunk line
index. -/
def lineStep (parse : List Nat → Option TTSStreamChunk)
    (acc : ChunkAccum) (line : List Nat) : ChunkAccum :=
  let bumped :=
    { acc with lineCount := acc.lineCount + 1 }
  if line.all isJsWhitespace then bumped
  else
    match parse line with
    | none => { bumped with warnings := acc.warnings + 1 }
    | some chunk =>
      match chunk.result with
      | none => bumped
      | some r =>
        match r.audioContent with
        | none => bumped
        | some s =>
          if s.isEmpty then bumped
          else
            { bumped with
              chunks := acc.chunks ++ [stripWavHeader (decodeBase64 s)],
              firstChunkIdx :=
                match acc.firstChunkIdx with
                | none => some acc.lineCount
                | some i => some i }

/-- Chunk contributed by one complete line, if any; companion to
lineStep used to characterize the chunk sequence. -/
def lineChunk (parse : List Nat → Option TTSStreamChunk)
    (line : List Nat) : Option (List Nat) :=
  if line.all isJsWhitespace then none
  else
    match parse line with
    | none => none
    | some chunk =>
      match chunk.result with
      | none => none
      | some r =>
        match r.audioContent with
        | none => none
        | some s =>
          if s.isEmpty then none
          else some (stripWavHeader (decodeBase64 s))

/-- Whether one complete line raises the parse warning of the loop. -/
def lineWarn (parse : List Nat → Option TTSStreamChunk)
    (line : List Nat) : Nat :=
  if line.all isJsWhitespace then 0
  else
    match parse line with
    | none => 1
    | some _ => 0

/-- Full state threaded through the read loop of streamSpeech: the
decoder state, the BOM flag, the trailing incomplete line kept in
buffer, and the per-line accumulator. -/
structure LoopState where
  dec : Utf8State
  bomHandled : Bool
  buffer : List Nat
  acc : ChunkAccum
  deriving DecidableEq

/-- State at the start of streamSpeech: fresh decoder, empty buffer,
empty accumulator. -/
def loopStart : LoopState :=
  { dec := utf8Fresh, bomHandled := false, buffer := [], acc := accStart }

/-- One iteration of the read loop for one value delivered by
reader.read(): decode the bytes, append to the line buffer, split off
the complete lines, keep the incomplete remainder, and process each
complete line in order. -/
def readStep (parse : List Nat → Option TTSStreamChunk)
    (st : LoopState) (bytes : List Nat) : LoopState :=
  let d := utf8Decode st.dec bytes
  let bom := stripBom st.bomHandled d.2
  let sp := splitLines (st.buffer ++ bom.2)
  { dec := d.1, bomHandled := bom.1, buffer := sp.2,
    acc := List.foldl (lineStep parse) st.acc sp.1 }

/-- Decode loop of streamSpeech over a whole stream, delivered as a list
of reads; any bytes left in the buffer at end of stream are discarded,
as the loop breaks on done without flushing. -/
def streamLoop (parse : List Nat → Option TTSStreamChunk)
    (reads : List (List Nat)) : LoopState :=
  List.foldl (readStep parse) loopStart reads

/-- StreamStats from src/types.ts, with durations as rational numbers
standing for millisecond readings of performance.now(). -/
structure StreamStats where
  timeToFirstChunk : ℚ
  totalTime : ℚ
  deriving DecidableEq

/-- Stats value returned by streamSpeech: timeToFirstChunk is
firstChunkTime minus startTime when firstChunkTime is truthy (a JS
number is falsy when it is null or 0) and 0 otherwise, and totalTime is
endTime minus startTime. -/
def streamStats (startTime endTime : ℚ) (firstChunkTime : Option ℚ) : StreamStats :=
  { timeToFirstChunk :=
      match firstChunkTime with
      | none => 0
      | some t => if t = 0 then 0 else t - startTime,
    totalTime := endTime - startTime }

/-- Stats of a completed stream, with clock i the performance.now()
reading taken while processing line i: the recorded firstChunkTime is
the clock at the line where the first chunk was decoded. -/
def streamSpeechStats (parse : List Nat → Option TTSStreamChunk)
    (reads : List (List Nat)) (clock : Nat → ℚ)
    (startTime endTime : ℚ) : StreamStats :=
  streamStats startTime endTime
    ((streamLoop parse reads).acc.firstChunkIdx.map clock)

/-- Concrete JSON.parse stub for witnesses: every line parses to a
record whose audioContent is the one-character string A. -/
def parseConst : List Nat → Option TTSStreamChunk :=
  fun _ => some { result := some { audioContent := some [65] } }

/-- Concrete JSON.parse stub for witnesses: every line fails to parse. -/
def parseFail : List Nat → Option TTSStreamChunk :=
  fun _ => none

/-- Concrete JSON.parse stub for witnesses: every line parses to a
record whose audioContent is the invalid base64 string of three
exclamation marks. -/
def parseBang : List Nat → Option TTSStreamChunk :=
  fun _ => some { result := some { audioContent := some [33, 33, 33] } }

/-- Concrete JSON.parse stub for witnesses: the line 1 parses to a
record with an empty audioContent string, every other line to a record
without an audioContent field. -/
def parseTwo : List Nat → Option TTSStreamChunk :=
  fun line =>
    if line = [49] then some { result := some { audioContent := some [] } }
    else some { result := some { audioContent := none } }

/-- Concrete constant clock for witnesses. -/
def clockConst : Nat → ℚ :=
  fun _ => 5

/-!
Theorems. The claims C1 to C10 of the specification are settled below,
one theorem per claim, with witnesses for the theorems that carry
hypotheses.
-/

/-- Helper: a 32-bit value is recovered from its little-endian bytes. -/
theorem u32le_roundtrip (v : Nat) (h : v < 4294967296) :
    v % 256 + 256 * (v / 256 % 256) + 65536 * (v / 65536 % 256) +
      16777216 * (v / 16777216 % 256) = v := by
  omega

set_option maxHeartbeats 4000000 in
/-- C1: for every chunk list and sample rate whose derived header fields
fit in 32 bits (Buffer.writeUInt32LE rejects larger values), the
assembled WAV buffer has total length 44 plus the concatenated data
length D, declares 36 + D as its RIFF size at bytes 4 to 8, D as its
data length at bytes 40 to 44, the sample rate R at bytes 24 to 28, and
the mono 16-bit byte rate R * 2 at bytes 28 to 32, all little-endian. -/
theorem c1_wav_header_arithmetic (chunks : List (List Nat)) (R : Nat)
    (hD : chunks.flatten.length + 36 < 4294967296)
    (hR : 2 * R < 4294967296) :
    (assembleWav chunks R).length = 44 + chunks.flatten.length ∧
    readU32LE (assembleWav chunks R) 4 = 36 + chunks.flatten.length ∧
    readU32LE (assembleWav chunks R) 40 = chunks.flatten.length ∧
    readU32LE (assembleWav chunks R) 24 = R ∧
    readU32LE (assembleWav chunks R) 28 = R * 2 := by
  have e1 : (assembleWav chunks R).length = chunks.flatten.length + 44 := rfl
  have e4 : readU32LE (assembleWav chunks R) 4 =
      (36 + chunks.flatten.length) % 256 +
        256 * ((36 + chunks.flatten.length) / 256 % 256) +
        65536 * ((36 + chunks.flatten.length) / 65536 % 256) +
        16777216 * ((36 + chunks.flatten.length) / 16777216 % 256) := rfl
  have e40 : readU32LE (assembleWav chunks R) 40 =
      chunks.flatten.length % 256 +
        256 * (chunks.flatten.length / 256 % 256) +
        65536 * (chunks.flatten.length / 65536 % 256) +
        16777216 * (chunks.flatten.length / 16777216 % 256) := rfl
  have e24 : readU32LE (assembleWav chunks R) 24 =
      R % 256 + 256 * (R / 256 % 256) + 65536 * (R / 65536 % 256) +
        16777216 * (R / 16777216 % 256) := rfl
  have e28 : readU32LE (assembleWav chunks R) 28 =
      R * 1 * 16 / 8 % 256 + 256 * (R * 1 * 16 / 8 / 256 % 256) +
        65536 * (R * 1 * 16 / 8 / 65536 % 256) +
        16777216 * (R * 1 * 16 / 8 / 16777216 % 256) := rfl
  refine ⟨by omega, ?_, ?_, ?_, ?_⟩
  · rw [e4]; exact u32le_roundtrip _ (by omega)
  · rw [e40]; exact u32le_roundtrip _ (by omega)
  · rw [e24]; exact u32le_roundtrip _ (by omega)
  · rw [e28]
    have : R * 1 * 16 / 8 = R * 2 := by omega
    rw [this]
    exact u32le_roundtrip _ (by omega)

/-- Witness for C1 at the concrete chunk list [[1, 2, 3]] and sample
rate 8000. -/
theorem c1_wav_header_arithmetic_witness :
    ([[1, 2, 3]] : List (List Nat)).flatten.length + 36 < 4294967296 ∧
    2 * 8000 < 4294967296 ∧
    ((assembleWav [[1, 2, 3]] 8000).length = 44 + ([[1, 2, 3]] : List (List Nat)).flatten.length ∧
    readU32LE (assembleWav [[1, 2, 3]] 8000) 4 = 36 + ([[1, 2, 3]] : List (List Nat)).flatten.length ∧
    readU32LE (assembleWav [[1, 2, 3]] 8000) 40 = ([[1, 2, 3]] : List (List Nat)).flatten.length ∧
    readU32LE (assembleWav [[1, 2, 3]] 8000) 24 = 8000 ∧
    readU32LE (assembleWav [[1, 2, 3]] 8000) 28 = 8000 * 2) :=
  ⟨by decide, by decide, c1_wav_header_arithmetic [[1, 2, 3]] 8000 (by decide) (by decide)⟩

/-- Counterexample for C2 as stated: stripWavHeader is not idempotent,
because the stripped remainder can itself pass the header check and be
stripped again (wavNested); moreover the tag detection masks the high
bit of each byte, so a buffer lacking the literal RIFF tag can still be
stripped (wavMasked). -/
theorem c2_strip_counterexample :
    stripWavHeader (stripWavHeader wavNested) ≠ stripWavHeader wavNested ∧
    (wavMasked.take 4 ≠ [82, 73, 70, 70] ∧ stripWavHeader wavMasked ≠ wavMasked) := by
  decide

/-- Helper: stripWavHeader returns its argument unchanged whenever the
strip condition fails. -/
theorem stripWavHeader_noop (B : List Nat)
    (h : ¬ (hasWavHeader B = true ∧ 44 < B.length)) :
    stripWavHeader B = B := by
  by_cases hw : hasWavHeader B = true
  · have hlen : ¬ 44 < B.length := fun hl => h ⟨hw, hl⟩
    simp [stripWavHeader, hw, hlen]
  · have hw' : hasWavHeader B = false := by
      revert hw; cases hasWavHeader B <;> simp
    simp [stripWavHeader, hw']

/-- C2 amended: a buffer with the literal RIFF and WAVE tags and more
than 44 bytes loses exactly its first 44 bytes; a buffer failing the
(high-bit-masked) header check or not longer than 44 bytes is returned
unchanged; and a second strip is a no-op exactly when the stripped
result does not itself satisfy the strip condition. Unconditional
idempotence fails (see the counterexample), as does the unchanged-ness
of every buffer lacking the literal tags, since the check masks each
byte to 7 bits. -/
theorem c2_strip_amended (B : List Nat) :
    (B.take 4 = [82, 73, 70, 70] → (B.drop 8).take 4 = [87, 65, 86, 69] →
      44 < B.length → stripWavHeader B = B.drop 44) ∧
    (¬ (hasWavHeader B = true ∧ 44 < B.length) → stripWavHeader B = B) ∧
    (¬ (hasWavHeader (stripWavHeader B) = true ∧ 44 < (stripWavHeader B).length) →
      stripWavHeader (stripWavHeader B) = stripWavHeader B) := by
  refine ⟨?_, stripWavHeader_noop B, stripWavHeader_noop (stripWavHeader B)⟩
  intro h1 h2 h3
  have hw : hasWavHeader B = true := by
    unfold hasWavHeader
    rw [if_neg (by omega)]
    rw [h1, h2]
    decide
  simp [stripWavHeader, hw, h3]

/-- Witness for C2 amended: a genuine 45-byte WAV buffer is stripped to
its data byte, a headerless buffer is unchanged, and the second strip of
the genuine buffer is a no-op. -/
theorem c2_strip_amended_witness :
    stripWavHeader wavPlain = wavPlain.drop 44 ∧
    stripWavHeader [1, 2, 3] = [1, 2, 3] ∧
    stripWavHeader (stripWavHeader wavPlain) = stripWavHeader wavPlain :=
  ⟨(c2_strip_amended wavPlain).1 (by decide) (by decide) (by decide),
   (c2_strip_amended [1, 2, 3]).2.1 (by decide),
   (c2_strip_amended wavPlain).2.2 (by decide)⟩

set_option maxHeartbeats 4000000 in
/-- C4: assembling zero chunks yields exactly the 44-byte header for
zero-length data, never an error: the output is createWavHeader applied
to data length 0, its length is 44, its RIFF size field reads 36 and its
data length field reads 0. -/
theorem c4_empty_stream_header (R : Nat) :
    assembleWav [] R = createWavHeader 0 R 1 16 ∧
    (assembleWav [] R).length = 44 ∧
    readU32LE (assembleWav [] R) 4 = 36 ∧
    readU32LE (assembleWav [] R) 40 = 0 := by
  refine ⟨?_, rfl, rfl, rfl⟩
  show createWavHeader 0 R 1 16 ++ [] = createWavHeader 0 R 1 16
  exact List.append_nil _

/-- Helper: the streaming UTF-8 decoder is a homomorphism for byte
concatenation: decoding a concatenation is decoding the first part and
then the second from the reached state. -/
theorem utf8Decode_append (a : List Nat) (s : Utf8State) (b : List Nat) :
    utf8Decode s (a ++ b) =
      ((utf8Decode (utf8Decode s a).1 b).1,
        (utf8Decode s a).2 ++ (utf8Decode (utf8Decode s a).1 b).2) := by
  induction a generalizing s with
  | nil => simp [utf8Decode]
  | cons x xs ih => simp [utf8Decode, ih]

/-- Helper: the BOM removal flag composes across concatenated outputs. -/
theorem stripBom_append (h : Bool) (o1 o2 : List Nat) :
    stripBom h (o1 ++ o2) =
      ((stripBom (stripBom h o1).1 o2).1,
        (stripBom h o1).2 ++ (stripBom (stripBom h o1).1 o2).2) := by
  cases h with
  | true => simp [stripBom]
  | false =>
    cases o1 with
    | nil => simp [stripBom]
    | cons c r =>
      by_cases hc : c = 65279 <;> simp [stripBom, hc]

/-- Helper: line splitting composes: the complete lines of a
concatenation are the complete lines of the first part followed by the
complete lines of its remainder joined with the second part. -/
theorem splitLines_append (x y : List Nat) :
    splitLines (x ++ y) =
      ((splitLines x).1 ++ (splitLines ((splitLines x).2 ++ y)).1,
        (splitLines ((splitLines x).2 ++ y)).2) := by
  induction x with
  | nil => simp [splitLines]
  | cons c rest ih =>
    by_cases hc : c = 10
    · subst hc
      simp [splitLines, ih]
    · simp only [List.cons_append, splitLines, if_neg hc]
      cases h1 : (splitLines rest).1 with
      | nil =>
        cases h2 : (splitLines ((splitLines rest).2 ++ y)).1 with
        | nil =>
          simp only [List.append_eq]
          rw [ih]; simp [splitLines, if_neg hc, h1, h2]
        | cons l ls =>
          simp only [List.append_eq]
          rw [ih]; simp [splitLines, if_neg hc, h1, h2]
      | cons l ls =>
        simp only [List.append_eq]
        rw [ih]; simp [h1]

/-- Helper: the remainder returned by splitLines never contains a
newline. -/
theorem splitLines_rem_no_newline (xs : List Nat) : ¬ 10 ∈ (splitLines xs).2 := by
  induction xs with
  | nil => simp [splitLines]
  | cons c rest ih =>
    by_cases hc : c = 10
    · subst hc; simpa [splitLines] using ih
    · simp only [splitLines, if_neg hc]
      cases h1 : (splitLines rest).1 with
      | nil =>
        simp only [List.mem_cons, not_or]
        exact ⟨fun h => hc h.symm, by simpa [h1] using ih⟩
      | cons l ls => simpa [h1] using ih

/-- Helper: a newline-free text splits into no complete line and itself
as remainder. -/
theorem splitLines_no_newline (xs : List Nat) (h : ¬ 10 ∈ xs) :
    splitLines xs = ([], xs) := by
  induction xs with
  | nil => rfl
  | cons c rest ih =>
    simp only [List.mem_cons, not_or] at h
    have hc : c ≠ 10 := fun hcc => h.1 hcc.symm
    simp [splitLines, if_neg hc, ih h.2]

/-- Helper: one read-loop iteration over concatenated bytes equals two
successive iterations; this is the key compositionality of the decode
loop, combining the decoder, BOM and line-splitting homomorphisms. -/
theorem stripBom_nil (h : Bool) : stripBom h [] = (h, []) := by
  cases h <;> rfl

theorem readStep_append (parse : List Nat → Option TTSStreamChunk)
    (st : LoopState) (a b : List Nat) :
    readStep parse (readStep parse st a) b = readStep parse st (a ++ b) := by
  simp only [readStep, utf8Decode_append a st.dec b, stripBom_append]
  rw [← List.append_assoc,
    splitLines_append
      (st.buffer ++ (stripBom st.bomHandled (utf8Decode st.dec a).2).2)
      (stripBom (stripBom st.bomHandled (utf8Decode st.dec a).2).1
        (utf8Decode (utf8Decode st.dec a).1 b).2).2]
  simp [List.foldl_append]

/-- Helper: the decode loop over any read sequence, started from a state
whose pending line buffer is newline-free, coincides with one single
read of the concatenated bytes. -/
theorem foldl_readStep_flatten (parse : List Nat → Option TTSStreamChunk)
    (reads : List (List Nat)) :
    ∀ st : LoopState, ¬ 10 ∈ st.buffer →
      List.foldl (readStep parse) st reads = readStep parse st reads.flatten := by
  induction reads with
  | nil =>
    intro st h
    have hsp : splitLines st.buffer = ([], st.buffer) := splitLines_no_newline _ h
    simp only [List.foldl_nil, List.flatten_nil, readStep, utf8Decode,
      stripBom_nil, List.append_nil, hsp]
  | cons r rs ih =>
    intro st h
    have hb : ¬ 10 ∈ (readStep parse st r).buffer := by
      simp only [readStep]
      exact splitLines_rem_no_newline _
    rw [List.foldl_cons, ih (readStep parse st r) hb, readStep_append,
      List.flatten_cons]

/-- C3: the chunk sequence decoded by the streamSpeech loop does not
depend on how the byte stream is split into reads: splitting at
arbitrary byte boundaries, including in the middle of a JSON record or
of a multi-byte UTF-8 character, produces the same final loop state
(hence the same ordered chunk sequence) as one single read of the whole
stream; stated for every JSON.parse embedding parse. -/
theorem c3_chunks_split_invariant (parse : List Nat → Option TTSStreamChunk)
    (reads : List (List Nat)) :
    streamLoop parse reads = streamLoop parse [reads.flatten] := by
  unfold streamLoop
  rw [foldl_readStep_flatten parse reads loopStart (by simp [loopStart])]
  simp

/-- Helper: processing one line appends exactly the chunk that lineChunk
attributes to the line. -/
theorem lineStep_chunks (parse : List Nat → Option TTSStreamChunk)
    (acc : ChunkAccum) (line : List Nat) :
    (lineStep parse acc line).chunks = acc.chunks ++ (lineChunk parse line).toList := by
  unfold lineStep lineChunk
  by_cases h1 : line.all isJsWhitespace
  · simp [h1]
  · simp only [h1, Bool.false_eq_true, if_false]
    cases hp : parse line with
    | none => simp
    | some ch =>
      cases hr : ch.result with
      | none => simp [hr]
      | some r =>
        cases ha : r.audioContent with
        | none => simp [hr, ha]
        | some s =>
          by_cases hs : s.isEmpty <;> simp [hr, ha, hs]

/-- Helper: processing one line adds exactly the warning that lineWarn
attributes to the line. -/
theorem lineStep_warnings (parse : List Nat → Option TTSStreamChunk)
    (acc : ChunkAccum) (line : List Nat) :
    (lineStep parse acc line).warnings = acc.warnings + lineWarn parse line := by
  unfold lineStep lineWarn
  by_cases h1 : line.all isJsWhitespace
  · simp [h1]
  · simp only [h1, Bool.false_eq_true, if_false]
    cases hp : parse line with
    | none => simp
    | some ch =>
      cases hr : ch.result with
      | none => simp [hr]
      | some r =>
        cases ha : r.audioContent with
        | none => simp [hr, ha]
        | some s =>
          by_cases hs : s.isEmpty <;> simp [hr, ha, hs]

/-- Helper: processing one line preserves the invariant that the chunk
list is empty exactly when no first-chunk line has been recorded. -/
theorem lineStep_empty_iff (parse : List Nat → Option TTSStreamChunk)
    (acc : ChunkAccum) (line : List Nat)
    (h : acc.chunks = [] ↔ acc.firstChunkIdx = none) :
    ((lineStep parse acc line).chunks = [] ↔
      (lineStep parse acc line).firstChunkIdx = none) := by
  unfold lineStep
  by_cases h1 : line.all isJsWhitespace
  · simpa [h1] using h
  · simp only [h1, Bool.false_eq_true, if_false]
    cases hp : parse line with
    | none => simpa using h
    | some ch =>
      cases hr : ch.result with
      | none => simpa [hr] using h
      | some r =>
        cases ha : r.audioContent with
        | none => simpa [hr, ha] using h
        | some s =>
          by_cases hs : s.isEmpty
          · simpa [hr, ha, hs] using h
          · cases hi : acc.firstChunkIdx <;> simp [hr, ha, hs, hi]

/-- Helper: folding the line processor accumulates the chunks of all
complete lines in order. -/
theorem foldl_lineStep_chunks (parse : List Nat → Option TTSStreamChunk)
    (ls : List (List Nat)) :
    ∀ acc : ChunkAccum,
      (List.foldl (lineStep parse) acc ls).chunks =
        acc.chunks ++ ls.filterMap (lineChunk parse) := by
  induction ls with
  | nil => intro acc; simp
  | cons l rest ih =>
    intro acc
    rw [List.foldl_cons, ih, lineStep_chunks]
    cases h : lineChunk parse l <;> simp [h]

/-- Helper: folding the line processor accumulates the warnings of all
complete lines. -/
theorem foldl_lineStep_warnings (parse : List Nat → Option TTSStreamChunk)
    (ls : List (List Nat)) :
    ∀ acc : ChunkAccum,
      (List.foldl (lineStep parse) acc ls).warnings =
        acc.warnings + (ls.map (lineWarn parse)).sum := by
  induction ls with
  | nil => intro acc; simp
  | cons l rest ih =>
    intro acc
    rw [List.foldl_cons, ih, lineStep_warnings]
    simp [Nat.add_assoc]

/-- Helper: folding the line processor preserves the empty-chunks
invariant. -/
theorem foldl_lineStep_empty_iff (parse : List Nat → Option TTSStreamChunk)
    (ls : List (List Nat)) :
    ∀ acc : ChunkAccum, (acc.chunks = [] ↔ acc.firstChunkIdx = none) →
      ((List.foldl (lineStep parse) acc ls).chunks = [] ↔
        (List.foldl (lineStep parse) acc ls).firstChunkIdx = none) := by
  induction ls with
  | nil => intro acc h; simpa using h
  | cons l rest ih =>
    intro acc h
    rw [List.foldl_cons]
    exact ih _ (lineStep_empty_iff parse acc l h)

/-- Helper: the whole decode loop preserves the empty-chunks invariant. -/
theorem streamLoop_empty_iff (parse : List Nat → Option TTSStreamChunk)
    (reads : List (List Nat)) :
    ((streamLoop parse reads).acc.chunks = [] ↔
      (streamLoop parse reads).acc.firstChunkIdx = none) := by
  suffices h : ∀ st : LoopState, (st.acc.chunks = [] ↔ st.acc.firstChunkIdx = none) →
      ((List.foldl (readStep parse) st reads).acc.chunks = [] ↔
        (List.foldl (readStep parse) st reads).acc.firstChunkIdx = none) by
    exact h loopStart (by simp [loopStart, accStart])
  induction reads with
  | nil => intro st h; simpa using h
  | cons r rest ih =>
    intro st h
    rw [List.foldl_cons]
    refine ih _ ?_
    simp only [readStep]
    exact foldl_lineStep_empty_iff parse _ st.acc h

/-- C5: a malformed line among the complete lines of a stream is skipped
with one warning and contributes nothing: the chunk sequence (and hence
the assembled WAV for every sample rate) equals that of the same line
sequence with the malformed line removed, while the warning count is one
higher; stated for every JSON.parse embedding parse, every surrounding
line lists and every starting accumulator. -/
theorem c5_malformed_line_skipped (parse : List Nat → Option TTSStreamChunk)
    (acc : ChunkAccum) (ls1 ls2 : List (List Nat)) (L : List Nat)
    (htrim : L.all isJsWhitespace = false) (hparse : parse L = none) :
    (List.foldl (lineStep parse) acc (ls1 ++ L :: ls2)).chunks =
      (List.foldl (lineStep parse) acc (ls1 ++ ls2)).chunks ∧
    (List.foldl (lineStep parse) acc (ls1 ++ L :: ls2)).warnings =
      (List.foldl (lineStep parse) acc (ls1 ++ ls2)).warnings + 1 ∧
    ∀ R : Nat,
      assembleWav (List.foldl (lineStep parse) acc (ls1 ++ L :: ls2)).chunks R =
        assembleWav (List.foldl (lineStep parse) acc (ls1 ++ ls2)).chunks R := by
  have hchunk : lineChunk parse L = none := by
    simp [lineChunk, htrim, hparse]
  have hwarn : lineWarn parse L = 1 := by
    simp [lineWarn, htrim, hparse]
  have hc : (List.foldl (lineStep parse) acc (ls1 ++ L :: ls2)).chunks =
      (List.foldl (lineStep parse) acc (ls1 ++ ls2)).chunks := by
    rw [foldl_lineStep_chunks, foldl_lineStep_chunks]
    simp [List.filterMap_append, List.filterMap_cons, hchunk]
  refine ⟨hc, ?_, fun R => by rw [hc]⟩
  rw [foldl_lineStep_warnings, foldl_lineStep_warnings]
  simp [List.map_append, hwarn]
  omega

/-- C8: bytes of a final line not terminated by a newline are silently
discarded at end of stream: appending to the stream any byte suffix
whose decoded text contains no newline (for instance a complete JSON
record with an audioContent field, missing its trailing newline) leaves
the accumulated chunks, warnings and first-chunk record unchanged. -/
theorem c8_unterminated_tail_discarded (parse : List Nat → Option TTSStreamChunk)
    (bytes tail : List Nat)
    (h : ¬ 10 ∈ (stripBom (streamLoop parse [bytes]).bomHandled
        (utf8Decode (streamLoop parse [bytes]).dec tail).2).2) :
    (streamLoop parse [bytes ++ tail]).acc = (streamLoop parse [bytes]).acc := by
  have h1 : streamLoop parse [bytes ++ tail] =
      readStep parse (streamLoop parse [bytes]) tail := by
    show List.foldl (readStep parse) loopStart [bytes ++ tail] =
      readStep parse (List.foldl (readStep parse) loopStart [bytes]) tail
    simp only [List.foldl_cons, List.foldl_nil]
    exact (readStep_append parse loopStart bytes tail).symm
  rw [h1]
  have hbuf : ¬ 10 ∈ (streamLoop parse [bytes]).buffer := by
    show ¬ 10 ∈ (List.foldl (readStep parse) loopStart [bytes]).buffer
    simp only [List.foldl_cons, List.foldl_nil, readStep]
    exact splitLines_rem_no_newline _
  simp only [readStep]
  rw [splitLines_no_newline _ (by
    simp only [List.mem_append, not_or]
    exact ⟨hbuf, h⟩)]
  simp

/-- Witness for C5 at a concrete one-line sequence whose only line fails
to parse. -/
theorem c5_malformed_line_skipped_witness :
    ([97] : List Nat).all isJsWhitespace = false ∧
    parseFail [97] = none ∧
    ((List.foldl (lineStep parseFail) accStart ([] ++ [97] :: [])).chunks =
      (List.foldl (lineStep parseFail) accStart ([] ++ [])).chunks ∧
    (List.foldl (lineStep parseFail) accStart ([] ++ [97] :: [])).warnings =
      (List.foldl (lineStep parseFail) accStart ([] ++ [])).warnings + 1 ∧
    ∀ R : Nat,
      assembleWav (List.foldl (lineStep parseFail) accStart ([] ++ [97] :: [])).chunks R =
        assembleWav (List.foldl (lineStep parseFail) accStart ([] ++ [])).chunks R) :=
  ⟨by decide, rfl,
    c5_malformed_line_skipped parseFail accStart [] [] [97] (by decide) rfl⟩

/-- Witness for C8: a complete record line arriving without a trailing
newline at the end of the stream contributes nothing, even though its
line would decode to an audio chunk under parseConst. -/
theorem c8_unterminated_tail_discarded_witness :
    ¬ 10 ∈ (stripBom (streamLoop parseConst [[123, 10]]).bomHandled
        (utf8Decode (streamLoop parseConst [[123, 10]]).dec [125]).2).2 ∧
    (streamLoop parseConst [[123, 10] ++ [125]]).acc =
      (streamLoop parseConst [[123, 10]]).acc :=
  ⟨by decide, c8_unterminated_tail_discarded parseConst [123, 10] [125] (by decide)⟩

/-- C6: for a completed stream under a monotone nonnegative clock, the
returned timeToFirstChunk is 0 exactly when no audio chunk was decoded
(the chunk list is empty exactly when no first-chunk line was recorded),
equals the clock reading at the first-chunk line minus the request-start
time whenever a chunk was decoded, and is never negative. The JS
truthiness test firstChunkTime ? _ : 0 also returns 0 when the reading
is exactly 0, which under the clock bounds coincides with the claimed
difference. -/
theorem c6_time_to_first_chunk (parse : List Nat → Option TTSStreamChunk)
    (reads : List (List Nat)) (clock : Nat → ℚ) (startT endT : ℚ)
    (h0 : 0 ≤ startT) (hlo : ∀ i, startT ≤ clock i) :
    ((streamLoop parse reads).acc.chunks = [] ↔
      (streamLoop parse reads).acc.firstChunkIdx = none) ∧
    ((streamLoop parse reads).acc.firstChunkIdx = none →
      (streamSpeechStats parse reads clock startT endT).timeToFirstChunk = 0) ∧
    (∀ i, (streamLoop parse reads).acc.firstChunkIdx = some i →
      (streamSpeechStats parse reads clock startT endT).timeToFirstChunk =
        clock i - startT) ∧
    0 ≤ (streamSpeechStats parse reads clock startT endT).timeToFirstChunk := by
  refine ⟨streamLoop_empty_iff parse reads, ?_, ?_, ?_⟩
  · intro hn
    simp [streamSpeechStats, streamStats, hn]
  · intro i hi
    simp only [streamSpeechStats, streamStats, hi, Option.map_some']
    by_cases ht : clock i = 0
    · have h1 := hlo i
      rw [ht] at h1
      have h2 : startT = 0 := le_antisymm h1 h0
      simp [ht, h2]
    · simp [ht]
  · cases hi : (streamLoop parse reads).acc.firstChunkIdx with
    | none => simp [streamSpeechStats, streamStats, hi]
    | some i =>
      simp only [streamSpeechStats, streamStats, hi, Option.map_some']
      by_cases ht : clock i = 0
      · simp [ht]
      · simp [ht, sub_nonneg]
        exact hlo i

/-- Witness for C6 at a concrete one-line stream and constant clock. -/
theorem c6_time_to_first_chunk_witness :
    (0 : ℚ) ≤ 1 ∧ (∀ i : Nat, (1 : ℚ) ≤ clockConst i) ∧
    (((streamLoop parseConst [[123, 10]]).acc.chunks = [] ↔
      (streamLoop parseConst [[123, 10]]).acc.firstChunkIdx = none) ∧
    ((streamLoop parseConst [[123, 10]]).acc.firstChunkIdx = none →
      (streamSpeechStats parseConst [[123, 10]] clockConst 1 9).timeToFirstChunk = 0) ∧
    (∀ i, (streamLoop parseConst [[123, 10]]).acc.firstChunkIdx = some i →
      (streamSpeechStats parseConst [[123, 10]] clockConst 1 9).timeToFirstChunk =
        clockConst i - 1) ∧
    0 ≤ (streamSpeechStats parseConst [[123, 10]] clockConst 1 9).timeToFirstChunk) :=
  ⟨by norm_num, fun i => by norm_num [clockConst],
    c6_time_to_first_chunk parseConst [[123, 10]] clockConst 1 9 (by norm_num)
      (fun i => by norm_num [clockConst])⟩

/-- C7: for a completed stream that decoded at least one audio chunk,
under a monotone clock bounded by the completion time, totalTime is at
least timeToFirstChunk. -/
theorem c7_total_time_ge_first_chunk (parse : List Nat → Option TTSStreamChunk)
    (reads : List (List Nat)) (clock : Nat → ℚ) (startT endT : ℚ)
    (hlo : ∀ i, startT ≤ clock i) (hhi : ∀ i, clock i ≤ endT)
    (hse : startT ≤ endT)
    (hc : (streamLoop parse reads).acc.chunks ≠ []) :
    (streamSpeechStats parse reads clock startT endT).timeToFirstChunk ≤
      (streamSpeechStats parse reads clock startT endT).totalTime := by
  cases hi : (streamLoop parse reads).acc.firstChunkIdx with
  | none => exact absurd ((streamLoop_empty_iff parse reads).mpr hi) hc
  | some i =>
    have h1 := hlo i
    have h2 := hhi i
    simp only [streamSpeechStats, streamStats, hi, Option.map_some']
    split <;> linarith

/-- Witness for C7 at a concrete one-line stream and constant clock. -/
theorem c7_total_time_ge_first_chunk_witness :
    (∀ i : Nat, (1 : ℚ) ≤ clockConst i) ∧ (∀ i : Nat, clockConst i ≤ (9 : ℚ)) ∧
    (1 : ℚ) ≤ 9 ∧ (streamLoop parseConst [[123, 10]]).acc.chunks ≠ [] ∧
    (streamSpeechStats parseConst [[123, 10]] clockConst 1 9).timeToFirstChunk ≤
      (streamSpeechStats parseConst [[123, 10]] clockConst 1 9).totalTime :=
  ⟨fun i => by norm_num [clockConst], fun i => by norm_num [clockConst],
    by norm_num, by decide,
    c7_total_time_ge_first_chunk parseConst [[123, 10]] clockConst 1 9
      (fun i => by norm_num [clockConst]) (fun i => by norm_num [clockConst])
      (by norm_num) (by decide)⟩

/-- Helper: the base64 character table only produces sextet values below
64. -/
theorem base64Val_lt (c v : Nat) (h : base64Val c = some v) : v < 64 := by
  unfold base64Val at h
  repeat' split at h
  all_goals try exact Option.noConfusion h
  all_goals injection h with h2
  all_goals omega

/-- Helper: converting sextets below 64 yields bytes below 256. -/
theorem sextetsToBytes_lt : ∀ (l : List Nat), (∀ x ∈ l, x < 64) →
    ∀ b ∈ sextetsToBytes l, b < 256
  | s0 :: s1 :: s2 :: s3 :: rest, h, b, hb => by
    have h0 : s0 < 64 := h s0 (by simp)
    have h1 : s1 < 64 := h s1 (by simp)
    have h2 : s2 < 64 := h s2 (by simp)
    have h3 : s3 < 64 := h s3 (by simp)
    simp only [sextetsToBytes, List.mem_cons] at hb
    rcases hb with rfl | rfl | rfl | hb
    · omega
    · omega
    · omega
    · exact sextetsToBytes_lt rest (fun x hx => h x (by simp [hx])) b hb
  | [s0, s1, s2], h, b, hb => by
    have h0 : s0 < 64 := h s0 (by simp)
    have h1 : s1 < 64 := h s1 (by simp)
    have h2 : s2 < 64 := h s2 (by simp)
    simp only [sextetsToBytes, List.mem_cons, List.not_mem_nil, or_false] at hb
    rcases hb with rfl | rfl
    · omega
    · omega
  | [s0, s1], h, b, hb => by
    have h0 : s0 < 64 := h s0 (by simp)
    have h1 : s1 < 64 := h s1 (by simp)
    simp only [sextetsToBytes, List.mem_cons, List.not_mem_nil, or_false] at hb
    rcases hb with rfl
    omega
  | [s0], h, b, hb => by
    simp [sextetsToBytes] at hb
  | [], h, b, hb => by
    simp [sextetsToBytes] at hb

/-- Helper: decodeBase64 always returns byte values below 256. -/
theorem decodeBase64_lt (s : List Nat) : ∀ b ∈ decodeBase64 s, b < 256 := by
  refine sextetsToBytes_lt _ ?_
  intro x hx
  rw [List.mem_filterMap] at hx
  obtain ⟨c, _, hc⟩ := hx
  exact base64Val_lt c x hc

/-- C9: decoding audioContent is total and never raises: for every
record line whose audioContent is a nonempty string s, even one that is
not syntactically valid base64, the loop appends exactly the chunk
stripWavHeader (decodeBase64 s) to the payload (it is never skipped or
reported as an error), and decodeBase64 always returns a list of byte
values below 256. -/
theorem c9_base64_total_chunk_appended (parse : List Nat → Option TTSStreamChunk)
    (acc : ChunkAccum) (line s : List Nat)
    (htrim : line.all isJsWhitespace = false)
    (hp : parse line = some { result := some { audioContent := some s } })
    (hs : s ≠ []) :
    (lineStep parse acc line).chunks =
      acc.chunks ++ [stripWavHeader (decodeBase64 s)] ∧
    ∀ b ∈ decodeBase64 s, b < 256 := by
  refine ⟨?_, decodeBase64_lt s⟩
  rw [lineStep_chunks]
  simp [lineChunk, htrim, hp, hs]

/-- Witness for C9: the garbage base64 string of three exclamation marks
still produces an (empty) appended chunk. -/
theorem c9_base64_total_chunk_appended_witness :
    ([33] : List Nat).all isJsWhitespace = false ∧
    parseBang [33] = some { result := some { audioContent := some [33, 33, 33] } } ∧
    ([33, 33, 33] : List Nat) ≠ [] ∧
    ((lineStep parseBang accStart [33]).chunks =
      accStart.chunks ++ [stripWavHeader (decodeBase64 [33, 33, 33])] ∧
    ∀ b ∈ decodeBase64 [33, 33, 33], b < 256) :=
  ⟨by decide, rfl, by decide,
    c9_base64_total_chunk_appended parseBang accStart [33] [33, 33, 33]
      (by decide) rfl (by decide)⟩

/-- C10: a record whose result.audioContent is present but equal to the
empty string is treated exactly like a record without an audioContent
field: the loop state after processing the two lines is identical, no
chunk (not even an empty one) is appended, and the first-chunk record is
untouched. -/
theorem c10_empty_audio_content_skipped (parse : List Nat → Option TTSStreamChunk)
    (acc : ChunkAccum) (L1 L2 : List Nat)
    (h1 : L1.all isJsWhitespace = false) (h2 : L2.all isJsWhitespace = false)
    (hp1 : parse L1 = some { result := some { audioContent := some [] } })
    (hp2 : parse L2 = some { result := some { audioContent := none } }) :
    lineStep parse acc L1 = lineStep parse acc L2 ∧
    (lineStep parse acc L1).chunks = acc.chunks ∧
    (lineStep parse acc L1).firstChunkIdx = acc.firstChunkIdx := by
  unfold lineStep
  simp [h1, h2, hp1, hp2]

/-- Witness for C10 at the concrete lines 1 and 2 under parseTwo. -/
theorem c10_empty_audio_content_skipped_witness :
    ([49] : List Nat).all isJsWhitespace = false ∧
    ([50] : List Nat).all isJsWhitespace = false ∧
    parseTwo [49] = some { result := some { audioContent := some [] } } ∧
    parseTwo [50] = some { result := some { audioContent := none } } ∧
    (lineStep parseTwo accStart [49] = lineStep parseTwo accStart [50] ∧
    (lineStep parseTwo accStart [49]).chunks = accStart.chunks ∧
    (lineStep parseTwo accStart [49]).firstChunkIdx = accStart.firstChunkIdx) :=
  ⟨by decide, by decide, by decide, by decide,
    c10_empty_audio_content_skipped parseTwo accStart [49] [50]
      (by decide) (by decide) (by decide) (by decide)⟩

end InworldTTS
